import Mathlib

/-!
Shallow embedding of the Scraper_Uploader core: the JSON record store
(`Jsons.write_json` in `common.py`), the filter pipeline
(`wp_upload/filters.py`) and the cron-like scheduler (`scheduler.py`).

Conventions used throughout:
* Python dict records become a `Record` structure; a field valued `none`
  models the key being absent or explicitly `None` (the claims never
  distinguish the two, and `dict.get` returns `None` for both).
* `fuzzywuzzy.fuzz.ratio` is an external library; it is a parameter
  (`Env.ratio`) over optional strings, since `clean_older_than_3_days`
  passes `record.get('Title')`, which may be `None`.
* Wall-clock instants are `Nat` seconds; `datetime.strftime`/`strptime`
  round-trips through `"%Y-%m-%d %H-%M-%S"` are second-precision and are
  modelled as the identity on that count.
* Machine-level string routines (`str.replace`, `str.split`, `re.sub`)
  are re-implemented structurally over `List Char` so that every
  definition is executable by the kernel.
-/

namespace ScraperUploader

/-! ### Character-list string primitives (models of Python `str` methods) -/

/-- A `\w` word character of Python's `re` module (ASCII approximation). -/
def isWordChar (c : Char) : Bool :=
  c.isAlphanum || c == '_'

/-- Python `str.lower()` (ASCII approximation via `Char.toLower`). -/
def pyLower (s : String) : String :=
  ⟨s.data.map Char.toLower⟩

/-- Core loop of Python `str.replace`: left-to-right, non-overlapping.
The `fuel` argument only bounds recursion; started at the input length it
is never exhausted. -/
def lcReplaceGo (pat rep : List Char) : Nat → List Char → List Char
  | _, [] => []
  | 0, s => s
  | Nat.succ fuel, c :: rest =>
    if !pat.isEmpty && pat.isPrefixOf (c :: rest) then
      rep ++ lcReplaceGo pat rep fuel ((c :: rest).drop pat.length)
    else
      c :: lcReplaceGo pat rep fuel rest

/-- Python `s.replace(pat, rep)` (for the non-empty patterns the code uses). -/
def pyReplace (s pat rep : String) : String :=
  ⟨lcReplaceGo pat.data rep.data s.data.length s.data⟩

/-- Core loop of `re.sub(r'\s+', ' ', s)`: collapse whitespace runs to a
single space.  The flag records whether the previous character was
whitespace. -/
def collapseWsGo : Bool → List Char → List Char
  | _, [] => []
  | prevWs, c :: rest =>
    if c.isWhitespace then
      (if prevWs then [] else [' ']) ++ collapseWsGo true rest
    else
      c :: collapseWsGo false rest

/-- `re.sub(r'\s+', ' ', s)`. -/
def pyCollapseWs (s : String) : String :=
  ⟨collapseWsGo false s.data⟩

/-- Python `str.strip()` with no argument: trim surrounding whitespace. -/
def pyStrip (s : String) : String :=
  ⟨((s.data.dropWhile Char.isWhitespace).reverse.dropWhile Char.isWhitespace).reverse⟩

/-- Core loop of Python `str.split(sep)` for a non-empty separator.
`acc` holds the current chunk reversed; `fuel` bounds recursion. -/
def lcSplitGo (sep : List Char) : Nat → List Char → List Char → List (List Char)
  | _, acc, [] => [acc.reverse]
  | 0, acc, s => [acc.reverse ++ s]
  | Nat.succ fuel, acc, c :: rest =>
    if !sep.isEmpty && sep.isPrefixOf (c :: rest) then
      acc.reverse :: lcSplitGo sep fuel [] ((c :: rest).drop sep.length)
    else
      lcSplitGo sep fuel (c :: acc) rest

/-- Python `s.split(sep)` for a non-empty separator. -/
def pySplit (s sep : String) : List String :=
  (lcSplitGo sep.data s.data.length [] s.data).map (fun l => ⟨l⟩)

/-- Python `pat in s` (substring containment). -/
def lcContainsSub (pat s : List Char) : Bool :=
  s.tails.any (fun t => pat.isPrefixOf t)

/-- One position of the whole-word search: the pattern occurs at the head
of `s` with a `\b` boundary on both sides (`prev` is the character just
before `s`, if any).  The banned words all start and end with word
characters, which is what makes this model of `\b` exact for them. -/
def wordAt (w : List Char) (prev : Option Char) (s : List Char) : Bool :=
  (match prev with
   | none => true
   | some p => !isWordChar p) &&
  w.isPrefixOf s &&
  (match s.drop w.length with
   | [] => true
   | c :: _ => !isWordChar c)

/-- Scan of `re.search(r'\b' + re.escape(w) + r'\b', t)`. -/
def containsWordGo (w : List Char) : Option Char → List Char → Bool
  | _, [] => false
  | prev, c :: rest => wordAt w prev (c :: rest) || containsWordGo w (some c) rest

/-- `re.search(r'\b' + re.escape(w) + r'\b', t) is not None`. -/
def containsWholeWord (w t : String) : Bool :=
  containsWordGo w.data none t.data

/-! ### Records and the JSON record store (`common.py`, `Jsons`) -/

/-- One scraped record.  Every field models `record.get(key)` on the
underlying Python dict: `none` is an absent key (or an explicit `None`). -/
structure Record where
  site : Option String := none
  title : Option String := none
  date : Option String := none
  pathImage : Option String := none
  linkForVideo : Option String := none
  models : Option String := none
  linkForPromo : Option String := none
deriving DecidableEq

/-- Python truthiness of `record.get('Link for video')`: a present,
non-empty string. -/
def truthyLink : Option String → Bool
  | some s => s ≠ ""
  | none => false

/-- The match test of `Jsons.write_json`'s inner loop: a stored record
with a truthy `'Link for video'` matches on that value, otherwise it
matches on `'Title'` (Python `==`, where `None == None` is `True`). -/
def wjMatches (stored newR : Record) : Bool :=
  if truthyLink stored.linkForVideo then
    stored.linkForVideo == newR.linkForVideo
  else
    stored.title == newR.title

/-- Scan the stored list for the first record matching `newR`; on a hit
replace it in place (`data[i] = new_record` followed by `break`). -/
def wjUpdate (newR : Record) : List Record → Option (List Record)
  | [] => none
  | r :: rest =>
    if wjMatches r newR then some (newR :: rest)
    else (wjUpdate newR rest).map (fun l => r :: l)

/-- Body of `Jsons.write_json`'s outer loop: update in place when a match
exists, otherwise `data.insert(0, new_record)`. -/
def wjInsertOne (data : List Record) (newR : Record) : List Record :=
  match wjUpdate newR data with
  | some updated => updated
  | none => newR :: data

/-- `Jsons.write_json(new_data, file_path)`: the new list of stored
records (file selection, locking and serialization are I/O glue outside
the embedded core). -/
def write_json (newData : List Record) (data : List Record) : List Record :=
  newData.foldl wjInsertOne data

/-! ### The filter pipeline (`wp_upload/filters.py`) -/

/-- External collaborators of the filter pipeline: the fuzzy matcher, the
static configuration tables, the clock and the upload-history files.
`ratio` models `fuzz.ratio`, `parseDate` models
`datetime.strptime(s, '%b %d, %Y')` (dates counted in days), `currentDate`
is today, and `uploaded off` is the content of the uploaded file for
`off` days ago (`Uploaded+<date>.json`). -/
structure Env where
  ratio : Option String → Option String → Nat
  modelsFilter : List (String × List (String × String))
  promoTable : String → Option String
  currentDate : Int
  parseDate : String → Option Int
  uploaded : Nat → List Record

/-- `TitleFilters.clean_empty_titles`: drop records whose `'Title'` is
`None`. -/
def clean_empty_titles (data : List Record) : List Record :=
  data.filter (fun r => r.title.isSome)

/-- `ImageFilters.clean_empty_image`: drop records whose `'Path image'`
is `None`. -/
def clean_empty_image (data : List Record) : List Record :=
  data.filter (fun r => r.pathImage.isSome)

/-- The initial `site_rules` table of `clean_duplicates`.  A key is an
ordered pair of `record.get('Site')` values and the value is the site
whose record is dropped when the rule fires. -/
def initSiteRules : List ((Option String × Option String) × Option String) :=
  [((some "site1", some "site2"), some "site1"),
   ((some "site3", some "site4"), some "site3")]

/-- `site_rules` lookup: `none` when the key is absent, `some v` when it
is bound to `v` (which itself is an optional site). -/
def rulesLookup (rules : List ((Option String × Option String) × Option String))
    (k : Option String × Option String) : Option (Option String) :=
  (rules.find? (fun p => p.1 == k)).map (fun p => p.2)

/-- State threaded through the duplicate scan: the `rows_to_keep` flags
and the (session-local, growing) `site_rules` table. -/
structure DupState where
  keep : List Bool
  rules : List ((Option String × Option String) × Option String)
deriving DecidableEq

/-- Body of the inner loop of `TitleFilters.clean_duplicates` for the
index pair `(i, j)`: on similarity `≥ 99`, apply an existing site rule
(in either key order, the `(site_i, site_j)` entry taking precedence,
like `site_rules.get((site_i, site_j), site_rules.get((site_j, site_i)))`);
with no rule, drop the later record `j` and learn the rule
`(site_i, site_j) ↦ site_j`. -/
def dupStep (env : Env) (data : List Record) (st : DupState) (i j : Nat) : DupState :=
  let ri := data.getD i {}
  let rj := data.getD j {}
  if 99 ≤ env.ratio (some (ri.title.getD "")) (some (rj.title.getD "")) then
    if (rulesLookup st.rules (ri.site, rj.site)).isSome
        || (rulesLookup st.rules (rj.site, ri.site)).isSome then
      let siteToDrop :=
        (rulesLookup st.rules (ri.site, rj.site)).getD
          ((rulesLookup st.rules (rj.site, ri.site)).getD none)
      if siteToDrop == ri.site then { st with keep := st.keep.set i false }
      else if siteToDrop == rj.site then { st with keep := st.keep.set j false }
      else st
    else
      { keep := st.keep.set j false,
        rules := st.rules ++ [((ri.site, rj.site), rj.site)] }
  else st

/-- The index list `enumerate(data[i+1:], start=i+1)` ranges over. -/
def innerIndices (i n : Nat) : List Nat :=
  (List.range (n - (i + 1))).map (fun k => k + (i + 1))

/-- The full double loop of `clean_duplicates`, returning the final keep
flags together with the learned `site_rules` table. -/
def dupPass (env : Env) (data : List Record) : DupState :=
  (List.range data.length).foldl
    (fun st i => (innerIndices i data.length).foldl (fun st2 j => dupStep env data st2 i j) st)
    { keep := List.replicate data.length true, rules := initSiteRules }

/-- `TitleFilters.clean_duplicates`:
`[record for keep, record in zip(rows_to_keep, data) if keep]`. -/
def clean_duplicates (env : Env) (data : List Record) : List Record :=
  (((dupPass env data).keep.zip data).filter (fun p => p.1)).map (fun p => p.2)

/-- The banned-word set of `TitleFilters.containing_words` (iteration
order only affects logging, not which records survive). -/
def filterWords : List String := ["word1", "word with word1", "word2"]

/-- Keep flag of one record in `containing_words`: no banned word occurs
as a whole word in the lower-cased title. -/
def wordsKeep (r : Record) : Bool :=
  !(filterWords.any (fun w => containsWholeWord w (pyLower (r.title.getD ""))))

/-- `TitleFilters.containing_words`. -/
def containing_words (data : List Record) : List Record :=
  (((data.map wordsKeep).zip data).filter (fun p => p.1)).map (fun p => p.2)

/-- The replacement chain of `TitleFilters.replace_symb_title`, in source
order. -/
def replaceSymbPairs : List (String × String) :=
  [("-", ""), ("|", ""), (":", ""), (",", ""), (".", ""), (")", ""), ("(", ""),
   ("#", ""), ("’", "'"), ("&", "and"), ("+", "and"), ("—", ""), ("?", ""),
   ("】", ""), ("【", ""), ("  ", " ")]

/-- The per-title transformation of `replace_symb_title`: the replacement
chain, then `re.sub(r'\s+', ' ', title).strip()`. -/
def cleanTitle (t : String) : String :=
  pyStrip (pyCollapseWs (replaceSymbPairs.foldl (fun acc p => pyReplace acc p.1 p.2) t))

/-- `TitleFilters.replace_symb_title` (mutates titles in place, drops
nothing). -/
def replace_symb_title (data : List Record) : List Record :=
  data.map (fun r =>
    match r.title with
    | some t => { r with title := some (cleanTitle t) }
    | none => r)

/-- `TitleFilters.model_in_title`: for every site-specific
`(wrongName ↦ correctName)` rule, substring-replace in the titles of that
site's records. -/
def model_in_title (env : Env) (data : List Record) : List Record :=
  env.modelsFilter.foldl (fun d siteRules =>
    siteRules.2.foldl (fun d2 kv =>
      d2.map (fun r =>
        if r.site == some siteRules.1 then
          let t := r.title.getD ""
          if lcContainsSub kv.1.data t.data then
            let nt := pyReplace t kv.1 kv.2
            if nt ≠ t then { r with title := some nt } else r
          else r
        else r)) d) data

/-- `ModelsFilters.model_in_models`: the same substitution table applied
to each comma-separated `'Models'` token (exact match after `strip()`),
followed by the global pass stripping periods and surrounding whitespace
from every string-valued `'Models'` field. -/
def model_in_models (env : Env) (data : List Record) : List Record :=
  let d1 := env.modelsFilter.foldl (fun d siteRules =>
    siteRules.2.foldl (fun d2 kv =>
      d2.map (fun r =>
        if r.site == some siteRules.1 then
          match r.models with
          | some ms =>
            let updated := String.intercalate ", "
              ((pySplit ms ", ").map (fun name =>
                if pyStrip name = kv.1 then kv.2 else name))
            if ms ≠ updated then { r with models := some updated } else r
          | none => r
        else r)) d) data
  d1.map (fun r =>
    match r.models with
    | some ms => { r with models := some (pyStrip (pyReplace ms "." "")) }
    | none => r)

/-- `TitleFilters.title_equal_models`: when `'Title'` and `'Models'` are
both truthy and equal, append `" is at {site}"` (Python f-string renders
a missing site as `"None"`). -/
def title_equal_models (data : List Record) : List Record :=
  data.map (fun r =>
    match r.title, r.models with
    | some t, some ms =>
      if t ≠ "" && ms ≠ "" && t == ms then
        { r with title := some (t ++ " is at " ++ (match r.site with
            | some s => s
            | none => "None")) }
      else r
    | _, _ => r)

/-- The day offsets of `DateFilters.generate_uploaded_file_names`: the
five previous days. -/
def uploadedOffsets : List Nat := [1, 2, 3, 4, 5]

/-- The parsed `'Date'` of a record in `clean_older_than_3_days`:
`record.get('Date', '')` with `None` coerced to `''`, parsed only when
non-empty; a `strptime` failure yields `none`. -/
def parsedDate (env : Env) (r : Record) : Option Int :=
  match r.date with
  | none => none
  | some s => if s = "" then none else env.parseDate s

/-- The age test: the parsed date is strictly before
`current_date - timedelta(days=3)`. -/
def dropByAge (env : Env) (r : Record) : Bool :=
  match parsedDate env r with
  | some d => decide (d < env.currentDate - 3)
  | none => false

/-- The upload-history test: some title in some of the prior five days'
uploaded files has similarity `≥ 90` with this record's title (an empty
file is skipped by the `if uploaded_data:` truthiness guard). -/
def dropByUploadMatch (env : Env) (r : Record) : Bool :=
  uploadedOffsets.any (fun off =>
    let up := env.uploaded off
    !up.isEmpty && up.any (fun u => 90 ≤ env.ratio r.title (some (u.title.getD ""))))

/-- Keep flag of one record in `clean_older_than_3_days`: the age test
short-circuits (`continue`) before the upload-history test runs. -/
def olderKeep (env : Env) (r : Record) : Bool :=
  !(dropByAge env r) && !(dropByUploadMatch env r)

/-- `DateFilters.clean_older_than_3_days`. -/
def clean_older_than_3_days (env : Env) (data : List Record) : List Record :=
  (((data.map (olderKeep env)).zip data).filter (fun p => p.1)).map (fun p => p.2)

/-- `PromoLinks.set_promo_links`: look up
`str(record.get('Site', '')).lower()` in the promo table; a falsy result
stores `None`. -/
def set_promo_links (env : Env) (data : List Record) : List Record :=
  data.map (fun r =>
    match env.promoTable (pyLower (r.site.getD "")) with
    | some p => if p ≠ "" then { r with linkForPromo := some p }
                else { r with linkForPromo := none }
    | none => { r with linkForPromo := none })

/-- `Filters.ordered_filters`: the fixed ten-stage composition. -/
def ordered_filters (env : Env) (data : List Record) : List Record :=
  set_promo_links env
    (clean_older_than_3_days env
      (title_equal_models
        (model_in_models env
          (model_in_title env
            (replace_symb_title
              (containing_words
                (clean_duplicates env
                  (clean_empty_image
                    (clean_empty_titles data)))))))))

/-- `Filters.apply_filters` on given store contents: select the daily
records whose `'Link for video'` is not among the filtered store's link
values (a `Record` models a non-empty dict, so the `and item` truthiness
conjunct always holds), and only when something is new run the pipeline
and upsert its output into the filtered store via `write_json`.  Returns
the new filtered store and whether a write happened. -/
def apply_filters (env : Env) (daily filtered : List Record) :
    List Record × Bool :=
  let filteredLinks := filtered.map (fun item => item.linkForVideo)
  let newData := daily.filter (fun item => !(filteredLinks.contains item.linkForVideo))
  if newData.isEmpty then (filtered, false)
  else (write_json (ordered_filters env newData) filtered, true)

/-! ### The scheduler (`scheduler.py`)

Instants are `Nat` seconds.  `Utils.get_current_datetime()` formats with
`"%Y-%m-%d %H-%M-%S"` and every consumer immediately parses it back with
the same format, so that round-trip is the identity on second-precision
instants and "now" is a single `Nat` parameter. -/

/-- Seconds per day. -/
def secondsPerDay : Nat := 86400

/-- A time-of-day string.  `Utils.get_current_time()` produces the
`"%H:%M:%S"` form; the builder's `at('HH:MM')` stores the `"%H:%M"`
form. -/
inductive TimeStr where
  | hm (h m : Nat)
  | hms (h m s : Nat)
deriving DecidableEq

/-- `datetime.strptime(s, '%H:%M').time()` as seconds since midnight:
`strptime` validates the field ranges and rejects unconsumed trailing
text, so an `"%H:%M:%S"`-shaped string (extra `:SS`) raises. -/
def strptimeHM : TimeStr → Option Nat
  | .hm h m => if h < 24 ∧ m < 60 then some (h * 3600 + m * 60) else none
  | .hms _ _ _ => none

/-- `datetime.strptime(s, '%H:%M:%S').time()` as seconds since midnight;
an `"%H:%M"`-shaped string is missing the seconds field and raises. -/
def strptimeHMS : TimeStr → Option Nat
  | .hm _ _ => none
  | .hms h m s => if h < 24 ∧ m < 60 ∧ s < 60 then some (h * 3600 + m * 60 + s) else none

/-- `Utils.get_current_time()`: "now" rendered as an `"%H:%M:%S"`
string. -/
def curTimeStr (now : Nat) : TimeStr :=
  .hms (now % secondsPerDay / 3600) (now % secondsPerDay % 3600 / 60) (now % 60)

/-- `datetime.weekday()` of an instant (Monday = 0; day 0 of the epoch is
a Thursday, weekday 3). -/
def weekday (now : Nat) : Nat :=
  (now / secondsPerDay + 3) % 7

/-- The value of `self.unit`.  `Job.__init__` assigns the builtin type
`int` itself (`self.unit = int`), modelled by `pyIntType`; the unit
properties overwrite it with one of the five strings. -/
inductive UnitV where
  | pyIntType
  | seconds
  | minutes
  | hours
  | days
  | weeks
deriving DecidableEq

/-- A `day_of_week` value: an integer or a weekday name. -/
inductive DowV where
  | int (n : Int)
  | name (s : String)
deriving DecidableEq

/-- The value of `self.job_id`.  `Job.__init__` line
`self.job_id = str if str else self.generate_id()` evaluates the builtin
class `str` as the condition — a class is truthy — so the attribute holds
the type `str` itself (`strType`) until `with_id` stores an actual
string. -/
inductive JobIdV where
  | strType
  | ofString (s : String)
deriving DecidableEq

deriving instance DecidableEq for Except

/-- The mutable state of a `Job` instance.  `action` models `job_func`:
`none` until `do()` binds a callable; a bound callable is summarized by
the outcome of invoking it (`Except.error` models a raised exception). -/
structure JobState where
  job_id : JobIdV := .strType
  interval : Nat := 1
  unit : UnitV := .pyIntType
  at_time : Option TimeStr := none
  day_of_week : Option DowV := none
  last_run : Option Nat := none
  next_run : Option Nat := none
  action : Option (Except String Unit) := none
deriving DecidableEq

/-- The weekday-name table of the `weeks` branch. -/
def weekdayNames : List String :=
  ["monday", "tuesday", "wednesday", "thursday", "friday", "saturday", "sunday"]

/-- `Job.calculate_next_run` as a function of "now" and the job state,
returning the computed `next_run` or the raised exception. -/
def calcNextRun (now : Nat) (j : JobState) : Except String Nat :=
  match j.unit with
  | .days =>
    match (match j.at_time with
           | some ts => strptimeHM ts
           | none => strptimeHM (curTimeStr now)) with
    | none => .error "ValueError: time data does not match format %H:%M"
    | some runTime =>
      let nextRun := now / secondsPerDay * secondsPerDay + runTime
      if j.last_run = none then .ok nextRun
      else if nextRun < now then .ok (nextRun + j.interval * secondsPerDay)
      else .ok nextRun
  | .weeks =>
    match j.day_of_week with
    | none => .error "ValueError: day_of_week must be set for weekly scheduling"
    | some dv =>
      match (match dv with
             | .int n => some n
             | .name s => (weekdayNames.findIdx? (fun w => w == pyLower s)).map
                 (fun k => (k : Int))) with
      | none => .error "ValueError: Invalid day_of_week"
      | some dow =>
        let nextRun := now + ((dow - (weekday now : Int)) % 7).toNat * secondsPerDay
        if now > nextRun then .ok (nextRun + j.interval * 7 * secondsPerDay)
        else .ok nextRun
  | .hours =>
    match (match j.last_run with
           | none => (strptimeHMS (curTimeStr now)).map
               (fun t => now / secondsPerDay * secondsPerDay + t + j.interval * 3600)
           | some lr => some (lr + j.interval * 3600)) with
    | none => .error "ValueError: time data does not match format %H:%M:%S"
    | some nextRun =>
      if nextRun ≤ now then .ok (nextRun + secondsPerDay)
      else .ok nextRun
  | _ => .error "ValueError: Unsupported unit"

/-- `Job.run()`: invoke `job_func` (a raise propagates before any state
change), then set `last_run` to "now" and recompute `next_run`. -/
def runJobUpd (now : Nat) (j : JobState) : Except String JobState :=
  match j.action with
  | none => .error "ValueError: Cannot run job because job_func is None"
  | some (.error e) => .error e
  | some (.ok _) =>
    let j1 := { j with last_run := some now }
    (calcNextRun now j1).map (fun nr => { j1 with next_run := some nr })

/-- `Scheduler.run_pending()`: sweep the registered jobs once, running
each whose `next_run` is truthy and at or before "now".  There is no
`try`/`except` around `self._run_job(job)`, so a raise propagates and
abandons the rest of the sweep.  The `self.save_data()` call after each
run only touches the state file (modelled separately by `save_data`). -/
def runPending (now : Nat) : List JobState → Except String (List JobState)
  | [] => .ok []
  | j :: rest =>
    match j.next_run with
    | some nr =>
      if nr ≤ now then
        match runJobUpd now j with
        | .error e => .error e
        | .ok j1 => (runPending now rest).map (fun l => j1 :: l)
      else (runPending now rest).map (fun l => j :: l)
    | none => (runPending now rest).map (fun l => j :: l)

/-- One persisted job entry of the scheduler state file
(`Job.to_dict()` output / one element of the file's `jobs` list). -/
structure SJobRec where
  id : String
  interval : Nat := 1
  unit : UnitV := .pyIntType
  at_time : Option TimeStr := none
  day_of_week : Option DowV := none
  last_run : Option Nat := none
  next_run : Option Nat := none
  action_module : String := ""
  action_name : String := ""
  args : List String := []
  kwargs : List (String × String) := []
deriving DecidableEq

/-- One Python dict assignment `d[k] = v` on an insertion-ordered dict
represented as an association list: replace in place when the key exists,
otherwise append. -/
def dictUpsert (m : List (String × SJobRec)) (k : String) (v : SJobRec) :
    List (String × SJobRec) :=
  if m.any (fun p => p.1 == k) then
    m.map (fun p => if p.1 = k then (k, v) else p)
  else m ++ [(k, v)]

/-- Build a dict keyed by `id` from a list of entries, starting from
`m0` (`{job_data['id']: job_data for job_data in jobs}` and the update
loop of `save_data`). -/
def buildDict (entries : List SJobRec) (m0 : List (String × SJobRec)) :
    List (String × SJobRec) :=
  entries.foldl (fun m e => dictUpsert m e.id e) m0

/-- `Scheduler.save_data()`: read the on-disk entries into a dict keyed
by `id`, overwrite per key with the in-memory jobs' dicts, and write out
`list(existing_jobs_dict.values())` (disk-space checks and popup retries
are I/O glue around this pure merge). -/
def save_data (fileEntries memEntries : List SJobRec) : List SJobRec :=
  (buildDict memEntries (buildDict fileEntries [])).map (fun p => p.2)

/-- `Job.load_job_data(job_id, file_path)`: `none` for a missing, empty
or corrupt file, otherwise the first entry of the `jobs` list whose
`'id'` matches. -/
def load_job_data (jid : String) (file : Option (List SJobRec)) : Option SJobRec :=
  match file with
  | none => none
  | some entries => entries.find? (fun d => d.id == jid)

/-- `Job.from_dict(data)`: rebuild a job from a persisted entry.  The
persisted `last_run` is kept as is (`if data['last_run']:` leaves `None`
in place); the persisted `next_run` is kept when non-null and otherwise
recomputed — which can itself raise.  `resolve` models
`getattr(__import__(action_module), action_name)` followed by invoking
the callable. -/
def from_dict (resolve : String → String → Except String Unit) (now : Nat)
    (d : SJobRec) : Except String JobState :=
  let j0 : JobState :=
    { job_id := .ofString d.id
      interval := d.interval
      unit := d.unit
      at_time := d.at_time
      day_of_week := d.day_of_week
      last_run := d.last_run
      next_run := none
      action := some (resolve d.action_module d.action_name) }
  match d.next_run with
  | some t => .ok { j0 with next_run := some t }
  | none => (calcNextRun now j0).map (fun nr => { j0 with next_run := some nr })

/-- `Job.do(job_func, ...)`: bind the callable, compute the first
`next_run`, require `job_id` to be a string instance, then register —
the persisted job reconstructed by `from_dict` when the state file has an
entry for this `id`, the freshly built job otherwise.  Returns the job
appended to `scheduler.jobs` (a job built through `Scheduler.every` is
always attached to a scheduler, so the missing-scheduler raise is
unreachable here). -/
def doRegister (resolve : String → String → Except String Unit) (now : Nat)
    (file : Option (List SJobRec)) (j : JobState) (act : Except String Unit) :
    Except String JobState :=
  let j1 := { j with action := some act }
  match calcNextRun now j1 with
  | .error e => .error e
  | .ok nr =>
    let j2 := { j1 with next_run := some nr }
    match j2.job_id with
    | .strType => .error "ValueError: job_id must be a string"
    | .ofString jid =>
      match load_job_data jid file with
      | some d => from_dict resolve now d
      | none => .ok j2

/-- `Scheduler.every(interval)` / `Job.__init__`: a fresh job whose
`job_id` is the builtin class `str` (the `str if str else ...` slip), the
given interval, and `unit` holding the builtin type `int`. -/
def every (interval : Nat := 1) : JobState :=
  { job_id := .strType, interval := interval, unit := .pyIntType }

/-- The `Job.days` property. -/
def daysUnit (j : JobState) : JobState := { j with unit := .days }

/-- The `Job.weeks` property. -/
def weeksUnit (j : JobState) : JobState := { j with unit := .weeks }

/-- The `Job.hours` property. -/
def hoursUnit (j : JobState) : JobState := { j with unit := .hours }

/-- The singular `Job.day` property: raises `IntervalError` unless the
interval is 1 (`hour`/`week`/`minute`/`second` are analogous). -/
def dayUnit (j : JobState) : Except String JobState :=
  if j.interval ≠ 1 then .error "IntervalError: Use days instead of day"
  else .ok (daysUnit j)

/-- `Job.at(time_str)`. -/
def atTime (j : JobState) (ts : TimeStr) : JobState := { j with at_time := some ts }

/-- `Job.on(day)`. -/
def onDay (j : JobState) (d : DowV) : JobState := { j with day_of_week := some d }

/-- `Job.with_id(id)`. -/
def with_id (j : JobState) (id : String) : JobState := { j with job_id := .ofString id }

/-! ### Concrete fixtures used by the verification scenarios -/

/-- A pipeline environment in which the two titles `"aa"` and `"ab"` have
similarity 99, both scrape dates parse to today, and every configuration
table is empty. -/
def envC2 : Env :=
  { ratio := fun a b => if a == some "aa" && b == some "ab" then 99 else 0
    modelsFilter := []
    promoTable := fun _ => none
    currentDate := 100
    parseDate := fun s => if s == "d0" then some 100 else none
    uploaded := fun _ => [] }

/-- A complete scraped record from site `"sA"`. -/
def recA : Record :=
  { site := some "sA"
    title := some "aa"
    date := some "d0"
    pathImage := some "pa"
    linkForVideo := some "la" }

/-- A complete scraped record from site `"sB"` whose title is a near
duplicate of `recA`'s under `envC2`. -/
def recB : Record :=
  { site := some "sB"
    title := some "ab"
    date := some "d0"
    pathImage := some "pb"
    linkForVideo := some "lb" }

/-- An environment for the dedup scenario: titles `"aa"`/`"ab"` and
`"cc"`/`"cd"` are the two near-duplicate pairs. -/
def envC3 : Env :=
  { ratio := fun a b =>
      if a == some "aa" && b == some "ab" then 99
      else if a == some "cc" && b == some "cd" then 99 else 0
    modelsFilter := []
    promoTable := fun _ => none
    currentDate := 100
    parseDate := fun _ => none
    uploaded := fun _ => [] }

/-- Dedup scenario record A: site `"site1"`, earliest index. -/
def rA : Record := { site := some "site1", title := some "aa" }

/-- Dedup scenario record B: site `"site3"`, near duplicate of `rA`. -/
def rB : Record := { site := some "site3", title := some "ab" }

/-- Dedup scenario record C: site `"site3"`, first of the second pair. -/
def rC : Record := { site := some "site3", title := some "cc" }

/-- Dedup scenario record D: site `"site1"`, near duplicate of `rC`. -/
def rD : Record := { site := some "site1", title := some "cd" }

/-- A due job whose action raises. -/
def jBad : JobState :=
  { job_id := .ofString "bad"
    unit := .hours
    interval := 1
    next_run := some 50
    action := some (.error "boom") }

/-- A due job whose action succeeds. -/
def jGood : JobState :=
  { job_id := .ofString "good"
    unit := .hours
    interval := 1
    next_run := some 50
    action := some (.ok ()) }

/-- A fresh daily job at 00:00 (never run). -/
def jDays0 : JobState :=
  { job_id := .ofString "daily"
    unit := .days
    at_time := some (.hm 0 0)
    interval := 1 }

/-- Persisted scheduler entry with id `"a"`. -/
def sjA : SJobRec := { id := "a", unit := .days, at_time := some (.hm 12 10) }

/-- Persisted scheduler entry with id `"b"`. -/
def sjB : SJobRec := { id := "b", unit := .hours, next_run := some 10 }

/-- In-memory scheduler entry that shares id `"b"` with `sjB` but differs
in content. -/
def sjBm : SJobRec := { id := "b", unit := .hours, next_run := some 99, last_run := some 42 }

/-- Persisted entry used in the registration scenario: id `"J"`, with
both a persisted `last_run` and a persisted `next_run`. -/
def sjPersisted : SJobRec :=
  { id := "J", unit := .hours, interval := 2, last_run := some 5, next_run := some 7777 }

/-- A resolver whose reconstructed action always succeeds. -/
def resolveOk : String → String → Except String Unit := fun _ _ => .ok ()

/-- The freshly built job of the registration scenario, sharing id `"J"`
with `sjPersisted`. -/
def jFresh : JobState := with_id (hoursUnit (every 1)) "J"

/-- An age-filter environment: today is day 100 and the strings `"d96"`
and `"d98"` parse to days 96 and 98. -/
def envC8 : Env :=
  { ratio := fun _ _ => 0
    modelsFilter := []
    promoTable := fun _ => none
    currentDate := 100
    parseDate := fun s => if s == "d96" then some 96 else if s == "d98" then some 98 else none
    uploaded := fun _ => [] }

/-- A record dated 4 days before today under `envC8`. -/
def recD96 : Record := { title := some "t6", date := some "d96" }

/-- A record dated 2 days before today under `envC8`. -/
def recD98 : Record := { title := some "t8", date := some "d98" }

/-! ### Helper lemmas -/

theorem zip_map_filter {α : Type} (f : α → Bool) (l : List α) :
    ((((l.map f).zip l).filter (fun p => p.1)).map (fun p => p.2)) = l.filter f := by
  induction l with
  | nil => rfl
  | cons a t ih => by_cases h : f a <;> simp [List.filter_cons, h, ih]

theorem wjUpdate_eq_none {newR : Record} {data : List Record}
    (h : ∀ p ∈ data, wjMatches p newR = false) : wjUpdate newR data = none := by
  induction data with
  | nil => rfl
  | cons r rest ih =>
    simp only [wjUpdate, h r (by simp)]
    simp [ih (fun p hp => h p (by simp [hp]))]

theorem wjUpdate_append {newR r : Record} {pre post : List Record}
    (hpre : ∀ p ∈ pre, wjMatches p newR = false) (hr : wjMatches r newR = true) :
    wjUpdate newR (pre ++ r :: post) = some (pre ++ newR :: post) := by
  induction pre with
  | nil => simp [wjUpdate, hr]
  | cons a t ih =>
    simp only [List.cons_append, wjUpdate, hpre a (by simp)]
    simp [ih (fun p hp => hpre p (by simp [hp]))]

theorem wjUpdate_some_length {newR : Record} {data : List Record}
    (h : ∃ p ∈ data, wjMatches p newR = true) :
    ∃ l, wjUpdate newR data = some l ∧ l.length = data.length := by
  induction data with
  | nil => simp at h
  | cons r rest ih =>
    by_cases hr : wjMatches r newR
    · exact ⟨newR :: rest, by simp [wjUpdate, hr], by simp⟩
    · obtain ⟨p, hp, hpm⟩ := h
      rcases List.mem_cons.mp hp with rfl | hp2
      · exact absurd hpm (by simp [hr])
      · obtain ⟨l, hl, hlen⟩ := ih ⟨p, hp2, hpm⟩
        exact ⟨r :: l, by simp [wjUpdate, hr, hl], by simp [hlen]⟩

/-! ### Claim theorems -/

/-- C10: the claimed invariant "the store never gains a second record with
the same non-empty `'Link for video'`" fails: a new record carrying link
`"L"` is matched by title against a link-less stored record and replaces
it, even though another stored record already holds link `"L"`; the store
goes from one to two records with that link. -/
theorem write_json_duplicate_link_cex :
    ((write_json [{ title := some "A", linkForVideo := some "L" }]
        [{ title := some "A" }, { title := some "B", linkForVideo := some "L" }]).filter
      (fun r => r.linkForVideo == some "L")).length = 2 ∧
    (([{ title := some "A" }, { title := some "B", linkForVideo := some "L" }] :
        List Record).filter (fun r => r.linkForVideo == some "L")).length = 1 := by
  decide

/-- C10 (amended): `write_json` upserts by key: the first stored record
matching the new one (by non-empty `'Link for video'`, else by `'Title'`)
is replaced in place; with no match the new record is inserted at the
front; a matched write never changes the number of stored records.  (The
no-duplicate-link invariant of the original claim is refuted by
`write_json_duplicate_link_cex`.) -/
theorem write_json_upsert_amended :
    ∀ (data pre post : List Record) (r newR : Record),
      (data = pre ++ r :: post → (∀ p ∈ pre, wjMatches p newR = false) →
        wjMatches r newR = true → write_json [newR] data = pre ++ newR :: post) ∧
      ((∀ p ∈ data, wjMatches p newR = false) → write_json [newR] data = newR :: data) ∧
      ((∃ p ∈ data, wjMatches p newR = true) →
        (write_json [newR] data).length = data.length) := by
  intro data pre post r newR
  refine ⟨?_, ?_, ?_⟩
  · intro hdec hpre hr
    subst hdec
    simp [write_json, wjInsertOne, wjUpdate_append hpre hr]
  · intro hnone
    simp [write_json, wjInsertOne, wjUpdate_eq_none hnone]
  · intro hex
    obtain ⟨l, hl, hlen⟩ := wjUpdate_some_length hex
    simp [write_json, wjInsertOne, hl, hlen]

/-- C10 witness: a link-matched write replaces in place (store size 1
stays 1) and an unmatched write prepends. -/
theorem write_json_upsert_amended_witness :
    write_json [{ title := some "x", linkForVideo := some "L" }]
        [{ title := some "y", linkForVideo := some "L" }] =
      [{ title := some "x", linkForVideo := some "L" }] ∧
    write_json [{ title := some "x", linkForVideo := some "M" }]
        [{ title := some "y", linkForVideo := some "L" }] =
      [{ title := some "x", linkForVideo := some "M" },
       { title := some "y", linkForVideo := some "L" }] := by
  constructor
  · exact (write_json_upsert_amended [{ title := some "y", linkForVideo := some "L" }]
      [] [] { title := some "y", linkForVideo := some "L" }
      { title := some "x", linkForVideo := some "L" }).1 rfl (by simp) (by decide)
  · exact (write_json_upsert_amended [{ title := some "y", linkForVideo := some "L" }]
      [] [] { title := some "y", linkForVideo := some "L" }
      { title := some "x", linkForVideo := some "M" }).2.1 (by decide)

/-- C2 (amended): when every daily record's `'Link for video'` already
occurs among the filtered store's link values, `apply_filters` performs
no write and leaves the filtered store unchanged.  (The "calling twice is
a no-op" consequence of the original claim is refuted by
`apply_filters_twice_changes_store_cex`: records dropped by the filter
stages in the first call are selected as new again in the second.) -/
theorem apply_filters_no_new_no_write :
    ∀ (env : Env) (daily filtered : List Record),
      (∀ it ∈ daily,
        (filtered.map (fun p => p.linkForVideo)).contains it.linkForVideo = true) →
      apply_filters env daily filtered = (filtered, false) := by
  intro env daily filtered h
  have hnil : daily.filter
      (fun item => !((filtered.map (fun p => p.linkForVideo)).contains item.linkForVideo))
      = [] := by
    rw [List.filter_eq_nil_iff]
    intro a ha
    simp only [h a ha, Bool.not_true, Bool.false_eq_true, not_false_eq_true]
  simp only [apply_filters]
  rw [hnil]
  simp

/-- C2 witness: a store already containing the sole daily record's link
is returned unchanged with no write. -/
theorem apply_filters_no_new_no_write_witness :
    apply_filters envC2 [recA] [recA] = ([recA], false) := by
  exact apply_filters_no_new_no_write envC2 [recA] [recA] (by decide)

/-- C2 counterexample: with daily records `recA`, `recB` (near-duplicate
titles) and an empty filtered store, the first `apply_filters` call drops
`recB` in the dedup stage and stores only `recA`; the second call selects
`recB` as new again (its link is still absent from the store), it now
survives dedup alone, and the store changes — the claimed idempotence
fails. -/
theorem apply_filters_twice_changes_store_cex :
    (apply_filters envC2 [recA, recB] (apply_filters envC2 [recA, recB] []).1).1 ≠
      (apply_filters envC2 [recA, recB] []).1 := by
  decide

/-- C3: in `clean_duplicates`, a similarity-99 pair with no rule for its
site pair (in either order) drops the later-indexed record and appends
the learned rule `(site_i, site_j) ↦ site_j` (dropping the later site,
i.e. favoring the earlier record's site) to the session-local table; and
in the concrete pass `[rA, rB, rC, rD]` (sites site1, site3, site3,
site1), `rB` is dropped with `("site1", "site3")` learned, after which
the learned rule also drops `rC` — the site3 record of the second pair —
even though it precedes `rD`. -/
theorem clean_duplicates_learns_rule :
    (∀ (env : Env) (data : List Record) (st : DupState) (i j : Nat),
      99 ≤ env.ratio (some ((data.getD i {}).title.getD ""))
          (some ((data.getD j {}).title.getD "")) →
      rulesLookup st.rules ((data.getD i {}).site, (data.getD j {}).site) = none →
      rulesLookup st.rules ((data.getD j {}).site, (data.getD i {}).site) = none →
      dupStep env data st i j =
        { keep := st.keep.set j false,
          rules := st.rules ++
            [(((data.getD i {}).site, (data.getD j {}).site), (data.getD j {}).site)] }) ∧
    clean_duplicates envC3 [rA, rB, rC, rD] = [rA, rD] ∧
    (dupPass envC3 [rA, rB, rC, rD]).rules =
      initSiteRules ++ [((some "site1", some "site3"), some "site3")] := by
  refine ⟨?_, by decide, by decide⟩
  intro env data st i j h1 h2 h3
  simp only [dupStep]
  rw [if_pos h1, h2, h3]
  simp

/-- C3 witness: the learning step applied to a two-record batch from
sites site1 and site3 with an empty rule table. -/
theorem clean_duplicates_learns_rule_witness :
    dupStep envC3 [rA, rB] { keep := [true, true], rules := [] } 0 1 =
      { keep := [true, false], rules := [((some "site1", some "site3"), some "site3")] } := by
  have h := clean_duplicates_learns_rule.1 envC3 [rA, rB]
    { keep := [true, true], rules := [] } 0 1 (by decide) (by decide) (by decide)
  exact h.trans (by decide)

/-- C4 (amended): an exception raised by a due job's action propagates
out of `run_pending` — there is no `try`/`except` in the sweep — so the
sweep terminates at the failing job and the remaining registered jobs are
not evaluated.  (The original continue-on-failure claim is refuted by
`run_pending_error_cex`.) -/
theorem run_pending_error_stops_sweep :
    ∀ (now nr : Nat) (j : JobState) (rest : List JobState) (e : String),
      j.next_run = some nr → nr ≤ now → j.action = some (.error e) →
      runPending now (j :: rest) = .error e := by
  intro now nr j rest e h1 h2 h3
  simp [runPending, h1, h2, runJobUpd, h3]

/-- C4 witness: the failing job alone already aborts the sweep. -/
theorem run_pending_error_stops_sweep_witness :
    runPending 100 [jBad] = .error "boom" := by
  exact run_pending_error_stops_sweep 100 50 jBad [] "boom" (by decide) (by decide) (by decide)

/-- C4 counterexample: with a due failing job followed by a due healthy
job, the sweep returns the raised exception instead of running the second
job (which `runPending 100 [jGood]` shows would have run successfully). -/
theorem run_pending_error_cex :
    runPending 100 [jBad, jGood] = .error "boom" ∧
    (runPending 100 [jGood]).isOk = true := by
  decide

theorem strptimeHMS_curTimeStr (now : Nat) :
    strptimeHMS (curTimeStr now) = some (now % secondsPerDay) := by
  simp only [strptimeHMS, curTimeStr, secondsPerDay]
  rw [if_pos (by omega)]
  exact congrArg some (by omega)

theorem calcNextRun_hours_fresh (now : Nat) (jid : JobIdV) (iv : Nat)
    (ts : Option TimeStr) (dow : Option DowV) (nr : Option Nat)
    (act : Option (Except String Unit)) :
    calcNextRun now
      { job_id := jid, interval := iv, unit := .hours, at_time := ts,
        day_of_week := dow, last_run := none, next_run := nr, action := act } =
      .ok (if now + iv * 3600 ≤ now then now + iv * 3600 + secondsPerDay
           else now + iv * 3600) := by
  simp only [calcNextRun, strptimeHMS_curTimeStr, Option.map_some']
  have hd : now / secondsPerDay * secondsPerDay + now % secondsPerDay + iv * 3600 =
      now + iv * 3600 := by
    simp only [secondsPerDay]; omega
  rw [hd]
  split <;> rfl

/-- C1 (amended): `calculate_next_run` yields a strictly-future `next_run`
for an `hours` job that has never run (interval ≥ 1), and for a `days` job
with `last_run` set whose today-at-`at_time` instant is already strictly
past; but not in general — `calc_next_run_not_future_cex` exhibits a
fresh `days` job scheduled at or before "now". -/
theorem calc_next_run_strict_future_amended :
    ∀ (now : Nat) (j : JobState),
      (j.unit = .hours → j.last_run = none → 1 ≤ j.interval →
        ∃ t, calcNextRun now j = .ok t ∧ now < t) ∧
      (∀ h m, j.unit = .days → j.at_time = some (.hm h m) → h < 24 → m < 60 →
        j.last_run ≠ none → 1 ≤ j.interval →
        now / secondsPerDay * secondsPerDay + (h * 3600 + m * 60) < now →
        ∃ t, calcNextRun now j = .ok t ∧ now < t) := by
  intro now j
  obtain ⟨jid, iv, u, ts, dow, lr, nr, act⟩ := j
  constructor
  · intro hu hl hiv
    simp only at hu hl hiv
    subst hu
    subst hl
    rw [calcNextRun_hours_fresh]
    rw [if_neg (by omega)]
    exact ⟨now + iv * 3600, rfl, by omega⟩
  · intro h m hu hts hh hm hlr hiv hpast
    simp only at hu hts hlr hiv
    subst hu
    subst hts
    cases lr with
    | none => exact absurd rfl hlr
    | some lv =>
      simp only [calcNextRun, strptimeHM]
      rw [if_pos ⟨hh, hm⟩]
      simp only [secondsPerDay] at hpast ⊢
      rw [if_neg (by simp), if_pos hpast]
      refine ⟨_, rfl, ?_⟩
      have hmod := Nat.mod_lt now (show 0 < 86400 by omega)
      have hdm := Nat.div_add_mod now 86400
      omega

/-- C1 witness: a never-run hourly job at now = 1000 and a daily job with
`last_run` set whose 00:00 slot has passed at now = 90000. -/
theorem calc_next_run_strict_future_witness :
    (∃ t, calcNextRun 1000
      { job_id := .ofString "h", interval := 1, unit := .hours, at_time := none,
        day_of_week := none, last_run := none, next_run := none, action := none } =
        .ok t ∧ 1000 < t) ∧
    (∃ t, calcNextRun 90000
      { job_id := .ofString "d", interval := 1, unit := .days,
        at_time := some (.hm 0 0), day_of_week := none, last_run := some 0,
        next_run := none, action := none } = .ok t ∧ 90000 < t) := by
  constructor
  · exact (calc_next_run_strict_future_amended 1000
      { job_id := .ofString "h", interval := 1, unit := .hours, at_time := none,
        day_of_week := none, last_run := none, next_run := none, action := none }).1
      rfl rfl (by decide)
  · exact (calc_next_run_strict_future_amended 90000
      { job_id := .ofString "d", interval := 1, unit := .days,
        at_time := some (.hm 0 0), day_of_week := none, last_run := some 0,
        next_run := none, action := none }).2 0 0 rfl rfl (by decide) (by decide)
      (by decide) (by decide) (by decide)

/-- C1 counterexample: a fresh `days` job (no `last_run`) with
`at_time = 00:00` is given `next_run` = today at 00:00, which at
now = 867600 (day 10, 01:00) is strictly in the past — the job is
scheduled at or before "now", refuting the universal strictly-future
claim. -/
theorem calc_next_run_not_future_cex :
    calcNextRun 867600 jDays0 = .ok 864000 ∧ 864000 < 867600 := by
  decide

/-- C7: for unit `days` with `at_time` unset, `calculate_next_run` feeds
the `"%H:%M:%S"`-formatted output of `Utils.get_current_time()` to
`strptime(..., '%H:%M')`, which raises `ValueError` on the trailing
seconds field for every "now" — instead of using the current time as the
run time as the spec intends. -/
theorem calc_next_run_days_no_at_time_raises :
    ∀ (now iv : Nat) (jid : JobIdV) (dow : Option DowV) (lr nr : Option Nat)
      (act : Option (Except String Unit)),
      calcNextRun now
        { job_id := jid, interval := iv, unit := .days, at_time := none,
          day_of_week := dow, last_run := lr, next_run := nr, action := act } =
        .error "ValueError: time data does not match format %H:%M" := by
  intro now iv jid dow lr nr act
  rfl

theorem mem_dictUpsert_self (m : List (String × SJobRec)) (k : String) (v : SJobRec) :
    (k, v) ∈ dictUpsert m k v := by
  unfold dictUpsert
  split
  · next hc =>
    rw [List.any_eq_true] at hc
    obtain ⟨p, hp, hpk⟩ := hc
    rw [beq_iff_eq] at hpk
    exact List.mem_map.mpr ⟨p, hp, by rw [if_pos hpk]⟩
  · exact List.mem_append_right _ (by simp)

theorem mem_dictUpsert_of_ne {m : List (String × SJobRec)} {k : String} {v : SJobRec}
    {p : String × SJobRec} (hp : p ∈ m) (hne : p.1 ≠ k) : p ∈ dictUpsert m k v := by
  unfold dictUpsert
  split
  · exact List.mem_map.mpr ⟨p, hp, by rw [if_neg hne]⟩
  · exact List.mem_append_left _ hp

theorem dictUpsert_mem_cases {m : List (String × SJobRec)} {k : String} {v : SJobRec}
    {p : String × SJobRec} (h : p ∈ dictUpsert m k v) : p ∈ m ∨ p = (k, v) := by
  unfold dictUpsert at h
  split at h
  · obtain ⟨q, hq, hqe⟩ := List.mem_map.mp h
    by_cases hqk : q.1 = k
    · rw [if_pos hqk] at hqe
      exact Or.inr hqe.symm
    · rw [if_neg hqk] at hqe
      exact Or.inl (hqe ▸ hq)
  · rcases List.mem_append.mp h with h1 | h2
    · exact Or.inl h1
    · exact Or.inr (by simpa using h2)

theorem dictUpsert_key_eq {m : List (String × SJobRec)} {k : String} {v : SJobRec}
    {p : String × SJobRec} (h : p ∈ dictUpsert m k v) (hk : p.1 = k) : p = (k, v) := by
  unfold dictUpsert at h
  split at h
  · obtain ⟨q, hq, hqe⟩ := List.mem_map.mp h
    by_cases hqk : q.1 = k
    · rw [if_pos hqk] at hqe
      exact hqe.symm
    · rw [if_neg hqk] at hqe
      exact absurd (hqe ▸ hk) hqk
  · next hc =>
    rcases List.mem_append.mp h with h1 | h2
    · exact absurd (List.any_eq_true.mpr ⟨p, h1, by rw [beq_iff_eq]; exact hk⟩) hc
    · simpa using h2

theorem buildDict_cons (a : SJobRec) (t : List SJobRec) (m0 : List (String × SJobRec)) :
    buildDict (a :: t) m0 = buildDict t (dictUpsert m0 a.id a) := rfl

theorem mem_buildDict_of_not_mem {entries : List SJobRec}
    {m0 : List (String × SJobRec)} {p : String × SJobRec} (hp : p ∈ m0)
    (hk : p.1 ∉ entries.map SJobRec.id) : p ∈ buildDict entries m0 := by
  induction entries generalizing m0 with
  | nil => exact hp
  | cons a t ih =>
    simp only [List.map_cons, List.mem_cons, not_or] at hk
    exact ih (mem_dictUpsert_of_ne hp hk.1) hk.2

theorem mem_buildDict_self {entries : List SJobRec} {m0 : List (String × SJobRec)}
    (hnd : (entries.map SJobRec.id).Nodup) {e : SJobRec} (he : e ∈ entries) :
    (e.id, e) ∈ buildDict entries m0 := by
  induction entries generalizing m0 with
  | nil => simp at he
  | cons a t ih =>
    simp only [List.map_cons, List.nodup_cons] at hnd
    rw [buildDict_cons]
    rcases List.mem_cons.mp he with rfl | ht
    · exact mem_buildDict_of_not_mem (mem_dictUpsert_self m0 e.id e) hnd.1
    · exact ih hnd.2 ht

theorem buildDict_mem_cases {entries : List SJobRec} {m0 : List (String × SJobRec)}
    {p : String × SJobRec} (h : p ∈ buildDict entries m0) :
    p ∈ m0 ∨ ∃ e ∈ entries, p = (e.id, e) := by
  induction entries generalizing m0 with
  | nil => exact Or.inl h
  | cons a t ih =>
    rcases ih h with h1 | ⟨e, he, hpe⟩
    · rcases dictUpsert_mem_cases h1 with h2 | h3
      · exact Or.inl h2
      · exact Or.inr ⟨a, by simp, h3⟩
    · exact Or.inr ⟨e, by simp [he], hpe⟩

theorem buildDict_not_mem_key {entries : List SJobRec} {m0 : List (String × SJobRec)}
    {p : String × SJobRec} (h : p ∈ buildDict entries m0)
    (hk : p.1 ∉ entries.map SJobRec.id) : p ∈ m0 := by
  rcases buildDict_mem_cases h with h1 | ⟨e, he, hpe⟩
  · exact h1
  · exact absurd (List.mem_map.mpr ⟨e, he, by rw [hpe]⟩) hk

theorem buildDict_key_mem {entries : List SJobRec} {m0 : List (String × SJobRec)}
    {p : String × SJobRec} (hnd : (entries.map SJobRec.id).Nodup)
    (h : p ∈ buildDict entries m0) (hk : p.1 ∈ entries.map SJobRec.id) :
    ∃ e ∈ entries, p = (e.id, e) := by
  induction entries generalizing m0 with
  | nil => simp at hk
  | cons a t ih =>
    simp only [List.map_cons, List.nodup_cons] at hnd
    by_cases hkt : p.1 ∈ t.map SJobRec.id
    · obtain ⟨e, he, hpe⟩ := ih hnd.2 h hkt
      exact ⟨e, by simp [he], hpe⟩
    · have hka : p.1 = a.id := by
        rcases (by simpa using hk : p.1 = a.id ∨ ∃ x ∈ t, x.id = p.1) with h1 | ⟨x, hx, hxe⟩
        · exact h1
        · exact absurd (List.mem_map.mpr ⟨x, hx, hxe⟩) hkt
      have hp0 : p ∈ dictUpsert m0 a.id a :=
        buildDict_not_mem_key h (by rw [hka]; exact hnd.1)
      exact ⟨a, by simp, dictUpsert_key_eq hp0 hka⟩

/-- C5: `save_data` is a read-merge-write over the whole job set: with the
file and the in-memory job list each keyed by distinct ids, every on-disk
entry whose id matches no in-memory job survives unchanged, every
in-memory job's entry is written, and everything written comes from one
of the two sources (an on-disk entry only when no in-memory job shares
its id) — never a partial write of only the in-memory jobs. -/
theorem save_data_merges_jobs :
    ∀ (fileEntries memEntries : List SJobRec),
      (fileEntries.map SJobRec.id).Nodup →
      (memEntries.map SJobRec.id).Nodup →
      (∀ e ∈ fileEntries, e.id ∉ memEntries.map SJobRec.id →
        e ∈ save_data fileEntries memEntries) ∧
      (∀ e ∈ memEntries, e ∈ save_data fileEntries memEntries) ∧
      (∀ e ∈ save_data fileEntries memEntries,
        e ∈ memEntries ∨ (e ∈ fileEntries ∧ e.id ∉ memEntries.map SJobRec.id)) := by
  intro fileEntries memEntries hndf hndm
  refine ⟨?_, ?_, ?_⟩
  · intro e he hnm
    exact List.mem_map.mpr
      ⟨(e.id, e), mem_buildDict_of_not_mem (mem_buildDict_self hndf he) hnm, rfl⟩
  · intro e he
    exact List.mem_map.mpr ⟨(e.id, e), mem_buildDict_self hndm he, rfl⟩
  · intro e he
    obtain ⟨p, hp, hpe⟩ := List.mem_map.mp he
    by_cases hpk : p.1 ∈ memEntries.map SJobRec.id
    · obtain ⟨x, hx, hpx⟩ := buildDict_key_mem hndm hp hpk
      exact Or.inl (by rw [← hpe, hpx]; exact hx)
    · have hfile := buildDict_not_mem_key hp hpk
      rcases buildDict_mem_cases hfile with h0 | ⟨x, hx, hpx⟩
      · simp at h0
      · refine Or.inr ⟨by rw [← hpe, hpx]; exact hx, ?_⟩
        rw [← hpe, hpx]
        simpa [hpx] using hpk

/-- C5 witness: with on-disk entries `sjA`, `sjB` and the in-memory job
`sjBm` sharing `sjB`'s id, the rewritten file keeps `sjA` untouched and
holds the in-memory version for id `"b"`. -/
theorem save_data_merges_jobs_witness :
    sjA ∈ save_data [sjA, sjB] [sjBm] ∧ sjBm ∈ save_data [sjA, sjB] [sjBm] := by
  have h := save_data_merges_jobs [sjA, sjB] [sjBm] (by decide) (by decide)
  exact ⟨h.1 sjA (by decide) (by decide), h.2.1 sjBm (by decide)⟩

/-- C6: when `do()` finds persisted state for the job's id in the
scheduler state file, it registers the job reconstructed by `from_dict`
from that persisted entry instead of the freshly built job; a persisted
(non-null) `next_run` and the persisted `last_run` carry over to the
registered job, overriding the freshly computed values. -/
theorem do_registers_persisted_job :
    ∀ (resolve : String → String → Except String Unit) (now : Nat)
      (entries : List SJobRec) (j : JobState) (jid : String) (d : SJobRec)
      (act : Except String Unit) (nr : Nat),
      j.job_id = .ofString jid →
      calcNextRun now { j with action := some act } = .ok nr →
      entries.find? (fun x => x.id == jid) = some d →
      doRegister resolve now (some entries) j act = from_dict resolve now d ∧
      (∀ t, d.next_run = some t →
        ∃ j1, from_dict resolve now d = .ok j1 ∧ j1.next_run = some t ∧
          j1.last_run = d.last_run ∧ j1.job_id = .ofString d.id) := by
  intro resolve now entries j jid d act nr hjid hcalc hfind
  obtain ⟨ji, iv, u, ts, dw, lr, nr0, ac⟩ := j
  simp only at hjid
  subst hjid
  constructor
  · simp only [doRegister, hcalc, load_job_data, hfind]
  · intro t ht
    have hj : from_dict resolve now d =
        .ok { job_id := .ofString d.id
              interval := d.interval
              unit := d.unit
              at_time := d.at_time
              day_of_week := d.day_of_week
              last_run := d.last_run
              next_run := some t
              action := some (resolve d.action_module d.action_name) } := by
      simp only [from_dict, ht]
    exact ⟨_, hj, rfl, rfl, rfl⟩

/-- C6 witness: a fresh hourly job with id `"J"` is superseded at
registration by the persisted entry `sjPersisted`, whose stored
`next_run = 7777` and `last_run = 5` survive. -/
theorem do_registers_persisted_job_witness :
    doRegister resolveOk 0 (some [sjPersisted]) jFresh (.ok ()) =
      from_dict resolveOk 0 sjPersisted ∧
    ∃ j1, from_dict resolveOk 0 sjPersisted = .ok j1 ∧ j1.next_run = some 7777 ∧
      j1.last_run = some 5 ∧ j1.job_id = .ofString "J" := by
  have h := do_registers_persisted_job resolveOk 0 [sjPersisted] jFresh "J" sjPersisted
    (.ok ()) 3600 (by decide) (by decide) (by decide)
  obtain ⟨j1, h1, h2, h3, h4⟩ := h.2 7777 (by decide)
  exact ⟨h.1, j1, h1, h2, h3.trans (by decide), h4.trans (by decide)⟩

theorem dropByAge_iff (env : Env) (r : Record) :
    dropByAge env r = true ↔
      ∃ d, parsedDate env r = some d ∧ d < env.currentDate - 3 := by
  unfold dropByAge
  cases h : parsedDate env r <;> simp [h]

theorem dropByUploadMatch_iff (env : Env) (r : Record) :
    dropByUploadMatch env r = true ↔
      ∃ off ∈ uploadedOffsets, ∃ u ∈ env.uploaded off,
        90 ≤ env.ratio r.title (some (u.title.getD "")) := by
  unfold dropByUploadMatch
  rw [List.any_eq_true]
  constructor
  · rintro ⟨off, hoff, hcond⟩
    rw [Bool.and_eq_true, List.any_eq_true] at hcond
    obtain ⟨u, hu, hru⟩ := hcond.2
    exact ⟨off, hoff, u, hu, by simpa using hru⟩
  · rintro ⟨off, hoff, u, hu, hru⟩
    refine ⟨off, hoff, ?_⟩
    rw [Bool.and_eq_true, List.any_eq_true]
    refine ⟨?_, u, hu, by simpa using hru⟩
    simpa using List.ne_nil_of_mem hu

theorem olderKeep_iff (env : Env) (r : Record) :
    olderKeep env r = true ↔
      ¬ ((∃ d, parsedDate env r = some d ∧ d < env.currentDate - 3) ∨
         ∃ off ∈ uploadedOffsets, ∃ u ∈ env.uploaded off,
           90 ≤ env.ratio r.title (some (u.title.getD ""))) := by
  rw [not_or, ← dropByAge_iff, ← dropByUploadMatch_iff]
  unfold olderKeep
  cases hA : dropByAge env r <;> cases hB : dropByUploadMatch env r <;> simp [hA, hB]

/-- C8: a record survives `clean_older_than_3_days` iff neither its
`'Date'` parses (format `%b %d, %Y`) to strictly more than 3 days before
today nor its title has similarity ≥ 90 with some title of the prior five
days' upload-history files; an absent or unparseable date never triggers
the age drop.  In particular, under `envC8` the record dated 4 days ago
is dropped and the one dated 2 days ago is kept. -/
theorem clean_older_mem_iff :
    (∀ (env : Env) (data : List Record) (r : Record),
      r ∈ clean_older_than_3_days env data ↔
        r ∈ data ∧
        ¬ ((∃ d, parsedDate env r = some d ∧ d < env.currentDate - 3) ∨
           ∃ off ∈ uploadedOffsets, ∃ u ∈ env.uploaded off,
             90 ≤ env.ratio r.title (some (u.title.getD "")))) ∧
    recD96 ∉ clean_older_than_3_days envC8 [recD96, recD98] ∧
    recD98 ∈ clean_older_than_3_days envC8 [recD96, recD98] := by
  refine ⟨?_, by decide, by decide⟩
  intro env data r
  unfold clean_older_than_3_days
  rw [zip_map_filter, List.mem_filter]
  exact and_congr_right fun _ => olderKeep_iff env r

/-- C8 witness: the membership characterisation applied to the record
dated 2 days before today, whose keep conditions are discharged
concretely. -/
theorem clean_older_mem_iff_witness :
    recD98 ∈ clean_older_than_3_days envC8 [recD96, recD98] := by
  refine (clean_older_mem_iff.1 envC8 [recD96, recD98] recD98).mpr ⟨by decide, ?_⟩
  rintro (⟨d, hd, hlt⟩ | ⟨off, _, u, hu, _⟩)
  · rw [show parsedDate envC8 recD98 = some 98 from rfl] at hd
    cases hd
    exact absurd hlt (by decide)
  · rw [show envC8.uploaded off = [] from rfl] at hu
    simp at hu

/-- C9: a job built through the builder chain without `with_id` keeps the
builtin class `str` as its `job_id` (`Job.__init__`'s
`str if str else self.generate_id()` never calls `generate_id`), so the
terminal `do()` raises `ValueError: job_id must be a string` instead of
registering the job under a generated id. -/
theorem do_without_with_id_raises :
    ∀ (resolve : String → String → Except String Unit) (now iv : Nat)
      (file : Option (List SJobRec)) (act : Except String Unit),
      doRegister resolve now file (hoursUnit (every iv)) act =
        .error "ValueError: job_id must be a string" := by
  intro resolve now iv file act
  simp only [doRegister, hoursUnit, every]
  rw [calcNextRun_hours_fresh]

end ScraperUploader
